import Mathlib

/-!
Shallow embedding of the FRED time-series retrieval pipeline
(`src/validator.py`, `src/processor.py`, `src/api.py`).

Modelling conventions:
* A `pd.Timestamp` carrying a calendar date is the structure `Date`
  (year, month, day as naturals), ordered lexicographically.
* `datetime.strptime(s, "%Y-%m-%d")` is `parseYMD`: the CPython
  `_strptime` regex demands exactly four digits for `%Y`, one or two
  digits for `%m` (value 1..12) and `%d` (value 1..31), consumes the
  whole string, and the `datetime` constructor then checks the day
  against the month length and `year >= 1`.  ASCII digits are modelled
  (CPython's `\d` also matches exotic Unicode digits; no claim depends
  on those inputs).
* `TypeError` branches of the validators are not modelled: the Lean
  embedding is typed, so a non-string can never reach them.
* Python `ValueError`s raised by validator / filter / post-parse check
  are the spec's `InvalidArgument` kind; parser failures are
  `MalformedPayload`.
* A parsed dataframe row is `Obs` (date plus optional numeric value);
  a value cell that `pd.to_numeric(errors := coerce)` cannot parse
  becomes `none`, mirroring NaN.
-/

/-- A calendar date as carried by a `pd.Timestamp` (no time component). -/
structure Date where
  year : Nat
  month : Nat
  day : Nat
deriving DecidableEq, Repr

/-- Strict lexicographic comparison of dates (pandas `<`). -/
def Date.ltB (a b : Date) : Bool :=
  decide (a.year < b.year ∨ (a.year = b.year ∧
    (a.month < b.month ∨ (a.month = b.month ∧ a.day < b.day))))

/-- Non-strict lexicographic comparison of dates (pandas `<=`). -/
def Date.leB (a b : Date) : Bool :=
  Date.ltB a b || decide (a = b)

/-- Days in a month, with Gregorian leap years (as `datetime`). -/
def daysInMonth (y m : Nat) : Nat :=
  if m = 2 then
    if y % 4 = 0 ∧ (y % 100 ≠ 0 ∨ y % 400 = 0) then 29 else 28
  else if m = 4 ∨ m = 6 ∨ m = 9 ∨ m = 11 then 30
  else 31

/-- Numeric value of an ASCII digit character. -/
def digVal (c : Char) : Nat := c.toNat - 48

/-- The `%Y-` head of the strptime regex: exactly four digits then a dash. -/
def readYear : List Char → Option (Nat × List Char)
  | y1 :: y2 :: y3 :: y4 :: c :: rest =>
      if y1.isDigit && y2.isDigit && y3.isDigit && y4.isDigit && (c = '-') then
        some (((digVal y1 * 10 + digVal y2) * 10 + digVal y3) * 10 + digVal y4, rest)
      else none
  | _ => none

/-- The `%m-` part: regex `1[0-2]|0[1-9]|[1-9]` followed by a dash, i.e. one
digit (1..9) before a dash, or two digits with value 1..12 before a dash
(a digit is never a dash, so the branch order of the regex alternation is
immaterial). -/
def readMonth2 (m1 c2 : Char) : List Char → Option (Nat × List Char)
  | c3 :: rest2 =>
      if (c3 = '-') && m1.isDigit && c2.isDigit
          && decide (1 ≤ digVal m1 * 10 + digVal c2)
          && decide (digVal m1 * 10 + digVal c2 ≤ 12) then
        some (digVal m1 * 10 + digVal c2, rest2)
      else none
  | [] => none

/-- Dispatch between the one- and two-digit month shapes. -/
def readMonth : List Char → Option (Nat × List Char)
  | m1 :: c2 :: rest =>
      if c2 = '-' then
        if m1.isDigit && decide (1 ≤ digVal m1) then some (digVal m1, rest) else none
      else readMonth2 m1 c2 rest
  | _ => none

/-- The `%d` tail: regex `3[01]|[12]\d|0[1-9]|[1-9]` consuming the rest of the
string: one digit 1..9, or two digits with value 1..31. -/
def readDay : List Char → Option Nat
  | [d1] => if d1.isDigit && decide (1 ≤ digVal d1) then some (digVal d1) else none
  | [d1, d2] =>
      if d1.isDigit && d2.isDigit && decide (1 ≤ digVal d1 * 10 + digVal d2)
          && decide (digVal d1 * 10 + digVal d2 ≤ 31) then
        some (digVal d1 * 10 + digVal d2)
      else none
  | _ => none

/-- The `datetime(year, month, day)` constructor checks performed by
strptime after the regex match: `MINYEAR <= year`, month 1..12, day within
the month. -/
def mkValid (y m d : Nat) : Option Date :=
  if 1 ≤ y ∧ 1 ≤ m ∧ m ≤ 12 ∧ 1 ≤ d ∧ d ≤ daysInMonth y m then
    some ⟨y, m, d⟩
  else none

/-- Model of `datetime.strptime(s, "%Y-%m-%d")`, returning `none` on `ValueError`. -/
def parseYMD (s : String) : Option Date :=
  match readYear s.data with
  | none => none
  | some (y, rest) =>
    match readMonth rest with
    | none => none
    | some (m, rest2) =>
      match readDay rest2 with
      | none => none
      | some d => mkValid y m d

/-- Total version used after validation has guaranteed success
(`pd.to_datetime` re-parsing of already validated strings). -/
def parseYMDD (s : String) : Date := (parseYMD s).getD ⟨1, 1, 1⟩

/-- Error taxonomy of the spec; Python `ValueError`s from validators,
filters and the post-parse check carry the `invalidArgument` kind. -/
inductive FredError where
  | typeMismatch (msg : String)
  | invalidArgument (msg : String)
  | notFound (msg : String)
  | connectivity (msg : String)
  | malformedPayload (msg : String)
deriving DecidableEq, Repr

/-- Python `str.strip()` on the underlying character sequence. -/
def stripChars (l : List Char) : List Char :=
  ((l.dropWhile Char.isWhitespace).reverse.dropWhile Char.isWhitespace).reverse

/-- Function `validate_series_id` (validator.py): empty / whitespace-only rejected. -/
def validate_series_id (series_id : String) : Except FredError Unit :=
  if stripChars series_id.data = [] then
    Except.error (FredError.invalidArgument "series_id cannot be empty")
  else Except.ok ()

/-- Function `validate_date_format` (validator.py): strptime with format
`%Y-%m-%d`; failure raises `ValueError` naming the parameter. -/
def validate_date_format (date_str : String) (param_name : String) :
    Except FredError Unit :=
  match parseYMD date_str with
  | some _ => Except.ok ()
  | none =>
      Except.error (FredError.invalidArgument
        (param_name ++ " must be in YYYY-MM-DD format, got \x27" ++ date_str ++ "\x27"))

/-- The per-element loop of `validate_dates_list`, carrying the index for
the positional label and propagating the first failure. -/
def validateEach : Nat → List String → Except FredError Unit
  | _, [] => Except.ok ()
  | i, d :: rest =>
      match validate_date_format d ("dates[" ++ toString i ++ "]") with
      | Except.error e => Except.error e
      | Except.ok () => validateEach (i + 1) rest

/-- Function `validate_dates_list` (validator.py). -/
def validate_dates_list (dates : List String) : Except FredError Unit :=
  if dates = [] then
    Except.error (FredError.invalidArgument "dates list cannot be empty")
  else validateEach 0 dates

/-- Message of the conflicting-parameters error in
`validate_date_parameters`. -/
def conflictMsg : String :=
  "Cannot specify both \x27dates\x27 list and \x27start_date\x27/\x27end_date\x27. Use one or the other."

/-- Function `validate_date_parameters` (validator.py). -/
def validate_date_parameters (dates : Option (List String))
    (start_date end_date : Option String) : Except FredError Unit :=
  if dates.isSome && (start_date.isSome || end_date.isSome) then
    Except.error (FredError.invalidArgument conflictMsg)
  else
    match (match dates with
           | some l => validate_dates_list l
           | none => Except.ok ()) with
    | Except.error e => Except.error e
    | Except.ok () =>
      match (match start_date with
             | some s => validate_date_format s "start_date"
             | none => Except.ok ()) with
      | Except.error e => Except.error e
      | Except.ok () =>
        match (match end_date with
               | some s => validate_date_format s "end_date"
               | none => Except.ok ()) with
        | Except.error e => Except.error e
        | Except.ok () =>
          match start_date, end_date with
          | some s, some e =>
              if Date.ltB (parseYMDD e) (parseYMDD s) then
                Except.error (FredError.invalidArgument
                  ("start_date (" ++ s ++ ") cannot be after end_date (" ++ e ++ ")"))
              else Except.ok ()
          | _, _ => Except.ok ()

/-- One parsed dataframe row: `value` is `none` when the source cell was
not numeric (pandas NaN after `to_numeric` with coercion). The numeric
token itself is kept as text: no pipeline step inspects its magnitude. -/
structure Obs where
  date : Date
  value : Option String
deriving DecidableEq, Repr

/-- Sign prefix accepted by the float grammar. -/
def dropSign : List Char → List Char
  | '+' :: r => r
  | '-' :: r => r
  | l => l

/-- Exponent-part digits with optional sign. -/
def sdigits (l : List Char) : Bool :=
  let l2 := dropSign l
  decide (l2 ≠ []) && l2.all Char.isDigit

/-- Optional exponent part of the float grammar. -/
def expPart : List Char → Bool
  | [] => true
  | 'e' :: r => sdigits r
  | 'E' :: r => sdigits r
  | _ => false

/-- Acceptance of `pd.to_numeric` on a text cell (decimal float literal,
optionally signed, optional fraction and exponent); the FRED missing
placeholder "." is rejected, becoming NaN under coercion. -/
def isNumericStr (s : String) : Bool :=
  let l := dropSign (stripChars s.data)
  let ip := l.takeWhile Char.isDigit
  let r1 := l.dropWhile Char.isDigit
  match r1 with
  | '.' :: r2 =>
      let fp := r2.takeWhile Char.isDigit
      let r3 := r2.dropWhile Char.isDigit
      decide (ip ≠ [] ∨ fp ≠ []) && expPart r3
  | _ => decide (ip ≠ []) && expPart r1

/-- Model of `pd.to_numeric(cell)` with coercion: `none` is NaN. -/
def parseNumeric (s : String) : Option String :=
  if isNumericStr s then some s else none

/-- A fetched payload after CSV tokenization: header cells and data-row
cells (network transport and character-level tokenization are external
collaborators per the spec). -/
structure RawCsv where
  header : List String
  rows : List (List String)
deriving DecidableEq, Repr

/-- Row loop of `parse_fred_csv`: a date cell that fails to parse is
fatal for the payload, a non-numeric value cell becomes missing. -/
def parseRows : List (List String) → Except FredError (List Obs)
  | [] => Except.ok []
  | [dstr, vstr] :: rest =>
      match parseYMD dstr with
      | none =>
          Except.error (FredError.malformedPayload
            ("Failed to parse FRED data: invalid date " ++ dstr))
      | some d =>
          match parseRows rest with
          | Except.error e => Except.error e
          | Except.ok tail => Except.ok (⟨d, parseNumeric vstr⟩ :: tail)
  | _ :: _ =>
      Except.error (FredError.malformedPayload "Failed to parse FRED data: malformed row")

/-- Function `parse_fred_csv` (processor.py): two-column check, then per-row
conversion. (`pd.to_datetime` on the date column accepts a superset of
`parseYMD`; no settled claim depends on the lenient extra formats.) -/
def parse_fred_csv (raw : RawCsv) : Except FredError (List Obs) :=
  if raw.header.length ≠ 2 then
    Except.error (FredError.malformedPayload
      ("Invalid CSV format: expected 2 columns, got " ++ toString raw.header.length))
  else parseRows raw.rows

/-- Function `check_all_none` (processor.py): `df.value.isna().all()` — true on an
empty frame as well, exactly as pandas `.all()`. -/
def check_all_none (df : List Obs) : Except FredError Unit :=
  if df.all (fun o => o.value.isNone) then
    Except.error (FredError.invalidArgument "All values from FRED API are None")
  else Except.ok ()

/-- First-some choice on options (left biased). -/
def orD : Option α → Option α → Option α
  | some x, _ => some x
  | none, b => b

/-- First non-missing entry of a column. -/
def firstSome : List (Option α) → Option α
  | [] => none
  | v :: r => orD v (firstSome r)

/-- Model of `Series.ffill()`: each missing entry takes the nearest preceding
available value, threaded through the carry argument. -/
def ffillVals : Option α → List (Option α) → List (Option α)
  | _, [] => []
  | carry, v :: rest =>
      match v with
      | some x => some x :: ffillVals (some x) rest
      | none => carry :: ffillVals carry rest

/-- Model of `Series.bfill()`: each missing entry takes the nearest following
available value. -/
def bfill : List (Option α) → List (Option α)
  | [] => []
  | v :: rest => orD v (firstSome rest) :: bfill rest

/-- Reassembling the dataframe after a column assignment
(`result_df[value] = filled`). -/
def withVals : List Obs → List (Option String) → List Obs
  | o :: os, v :: vs => ⟨o.date, v⟩ :: withVals os vs
  | _, _ => []

/-- Model of `result_df = DataFrame(date := requested).merge(df, on := date,
how := left)`: one block per requested date in requested order; an
unmatched date yields a single missing row, a matched date yields one row
per matching source row (in source order), keeping the source value. -/
def mergeLeft : List Date → List Obs → List Obs
  | [], _ => []
  | d :: rest, df =>
      (let ms := df.filter (fun o => o.date = d)
       if ms.isEmpty then [⟨d, none⟩] else ms.map (fun o => ⟨d, o.value⟩))
        ++ mergeLeft rest df

/-- Zero-padded decimal rendering helpers for dates in messages. -/
def pad2 (n : Nat) : String := if n < 10 then "0" ++ toString n else toString n

/-- Four-wide zero padding. -/
def pad4 (n : Nat) : String :=
  if n < 10 then "000" ++ toString n
  else if n < 100 then "00" ++ toString n
  else if n < 1000 then "0" ++ toString n
  else toString n

/-- Rendering of a date inside an error message (abstracting the exact
`Timestamp` repr used by Python). -/
def Date.render (d : Date) : String :=
  pad4 d.year ++ "-" ++ pad2 d.month ++ "-" ++ pad2 d.day

/-- Comma-separated join used when a message lists several dates. -/
def joinWith (sep : String) : List String → String
  | [] => ""
  | [x] => x
  | x :: xs => x ++ sep ++ joinWith sep xs

/-- Message of the before-inception rejection in `filter_by_dates`,
listing the offending dates and the inception date. -/
def mkInceptionMsg (off : List Date) (inception : Date) : String :=
  "Requested dates [" ++ joinWith ", " (off.map Date.render) ++
    "] are before series inception date " ++ Date.render inception

/-- Function `filter_by_dates` (processor.py). The second component of a
successful result is the emitted `UserWarning`, when any: the list of
requested dates whose value was missing after the exact-match join. -/
def filter_by_dates (df : List Obs) (dates : List Date) (series_start_date : Date) :
    Except FredError (List Obs × Option (List Date)) :=
  let before := dates.filter (fun d => Date.ltB d series_start_date)
  if before ≠ [] then
    Except.error (FredError.invalidArgument (mkInceptionMsg before series_start_date))
  else
    let merged := mergeLeft dates df
    let missing := (merged.filter (fun o => o.value.isNone)).map (fun o => o.date)
    if missing ≠ [] then
      let filled := bfill (ffillVals none (merged.map (fun o => o.value)))
      Except.ok (withVals merged filled, some missing)
    else
      Except.ok (merged, none)

/-- Function `filter_by_date_range` (processor.py): inclusive bounds, each applied
only when present. -/
def filter_by_date_range (df : List Obs) (start_date end_date : Option Date) :
    List Obs :=
  let df1 := match start_date with
             | some s => df.filter (fun o => Date.leB s o.date)
             | none => df
  match end_date with
  | some e => df1.filter (fun o => Date.leB o.date e)
  | none => df1

/-- Model of `df[date].min()` (defaulting on the empty frame, which the pipeline
never reaches: the all-missing check already rejected it). -/
def seriesMin (df : List Obs) : Date :=
  match df with
  | [] => ⟨1, 1, 1⟩
  | o :: rest => rest.foldl (fun acc b => if Date.ltB b.date acc then b.date else acc) o.date

/-- The fetch collaborator interface (spec section 4.2). -/
def Fetcher : Type := String → Option String → Option String → Except FredError RawCsv

/-- Method `FredAPI.get_series` (api.py): validate, fetch (without bounds when an
explicit dates list is given), parse, all-missing check, then at most one
of the two filters. A successful result carries the rows and the optional
missing-dates warning from the explicit-dates filter. -/
def get_series (fetch : Fetcher) (series_id : String)
    (dates : Option (List String)) (start_date end_date : Option String) :
    Except FredError (List Obs × Option (List Date)) :=
  match validate_series_id series_id with
  | Except.error e => Except.error e
  | Except.ok () =>
    match validate_date_parameters dates start_date end_date with
    | Except.error e => Except.error e
    | Except.ok () =>
      match (match dates with
             | none => fetch series_id start_date end_date
             | some _ => fetch series_id none none) with
      | Except.error e => Except.error e
      | Except.ok raw =>
        match parse_fred_csv raw with
        | Except.error e => Except.error e
        | Except.ok df =>
          match check_all_none df with
          | Except.error e => Except.error e
          | Except.ok () =>
            match dates with
            | some ds => filter_by_dates df (ds.map parseYMDD) (seriesMin df)
            | none =>
                if start_date.isSome || end_date.isSome then
                  Except.ok (filter_by_date_range df (start_date.map parseYMDD)
                    (end_date.map parseYMDD), none)
                else Except.ok (df, none)

/-- The combined range predicate of the spec: `date >= start` (when start
is given) and `date <= end` (when end is given), both inclusive. -/
def inRangeB (start_date end_date : Option Date) (d : Date) : Bool :=
  (match start_date with
   | some s => Date.leB s d
   | none => true) &&
  (match end_date with
   | some e => Date.leB d e
   | none => true)

/-- ASCII lowercasing of a character sequence, for case-insensitive
message containment. -/
def lowerChars (l : List Char) : List Char := l.map Char.toLower

/-- Predicate: `needle` occurs contiguously inside `hay`. -/
def ContainsChars (needle hay : List Char) : Prop :=
  ∃ p q, hay = p ++ needle ++ q

/-- The spec-side strict format of claim C1, written from the spec words:
a valid calendar date in the exact shape `YYYY-MM-DD` (four digit year,
two digit month, two digit day, dash separators). -/
def isExactYMD (s : String) : Bool :=
  match s.data with
  | [y1, y2, y3, y4, '-', m1, m2, '-', d1, d2] =>
      y1.isDigit && y2.isDigit && y3.isDigit && y4.isDigit &&
      m1.isDigit && m2.isDigit && d1.isDigit && d2.isDigit &&
      (let y := ((digVal y1 * 10 + digVal y2) * 10 + digVal y3) * 10 + digVal y4
       let m := digVal m1 * 10 + digVal m2
       let d := digVal d1 * 10 + digVal d2
       decide (1 ≤ y ∧ 1 ≤ m ∧ m ≤ 12 ∧ 1 ≤ d ∧ d ≤ daysInMonth y m))
  | _ => false

/-- What `validate_date_format` actually accepts, written from the spec
words amended by the counterexample: dash-separated year, month and day,
the year exactly four digits, month and day one or two digits, forming a
valid calendar date (month 1..12, day within the month, year at least 1). -/
def FlexYMD (s : String) : Prop :=
  ∃ y1 y2 y3 y4 ms ds, s.data = [y1, y2, y3, y4] ++ '-' :: ms ++ '-' :: ds ∧
    ([y1, y2, y3, y4] ++ ms ++ ds).all Char.isDigit = true ∧
    (ms.length = 1 ∨ ms.length = 2) ∧ (ds.length = 1 ∨ ds.length = 2) ∧
    (let y := ((digVal y1 * 10 + digVal y2) * 10 + digVal y3) * 10 + digVal y4
     let m := ms.foldl (fun a c => a * 10 + digVal c) 0
     let d := ds.foldl (fun a c => a * 10 + digVal c) 0
     1 ≤ y ∧ 1 ≤ m ∧ m ≤ 12 ∧ 1 ≤ d ∧ d ≤ daysInMonth y m)

/-! ### Helper lemmas -/

theorem Date.ltB_eq_false_of_leB {a b : Date} (h : Date.leB a b = true) :
    Date.ltB b a = false := by
  cases a with
  | mk ay am ad =>
    cases b with
    | mk yb mb db =>
      simp only [Date.leB, Date.ltB, Bool.or_eq_true, decide_eq_true_eq,
        Date.mk.injEq] at h
      simp only [Date.ltB, decide_eq_false_iff_not]
      omega

theorem range_eq_filter (df : List Obs) (start_date end_date : Option Date) :
    filter_by_date_range df start_date end_date =
      df.filter (fun o => inRangeB start_date end_date o.date) := by
  cases start_date <;> cases end_date <;>
    simp [filter_by_date_range, inRangeB, List.filter_filter, Bool.and_comm]

/-! ### Claim theorems -/

/-- C7: for every series and optional start/end bounds, the range filter
returns exactly the observations whose date satisfies `date >= start`
(when start is given) and `date <= end` (when end is given), both bounds
inclusive, preserving the original order (the result is a sublist of the
input), with no possibility of failure (the function is total). -/
theorem filter_by_date_range_spec (df : List Obs) (start_date end_date : Option Date) :
    filter_by_date_range df start_date end_date =
      df.filter (fun o => inRangeB start_date end_date o.date) ∧
    List.Sublist (filter_by_date_range df start_date end_date) df := by
  refine ⟨range_eq_filter df start_date end_date, ?_⟩
  rw [range_eq_filter]
  exact List.filter_sublist df

/-- C8: the range filter is idempotent — applying it again with the same
bounds to an already-filtered series returns the identical series. -/
theorem filter_by_date_range_idempotent (df : List Obs)
    (start_date end_date : Option Date) :
    filter_by_date_range (filter_by_date_range df start_date end_date)
        start_date end_date =
      filter_by_date_range df start_date end_date := by
  rw [range_eq_filter df, range_eq_filter, List.filter_filter]
  simp

/-- C2: whenever the explicit-dates list is non-null and at least one
range bound is non-null, `validate_date_parameters` fails with
InvalidArgument whose message contains (case-insensitively) the phrase
"cannot specify both", regardless of the values' content; and
`get_series` (for any series id passing its own validation) fails the
same way. -/
theorem conflict_rejected (l : List String) (start_date end_date : Option String)
    (h : start_date.isSome = true ∨ end_date.isSome = true) :
    validate_date_parameters (some l) start_date end_date =
      Except.error (FredError.invalidArgument conflictMsg) ∧
    ContainsChars "cannot specify both".data (lowerChars conflictMsg.data) ∧
    ∀ (fetch : Fetcher) (sid : String), validate_series_id sid = Except.ok () →
      get_series fetch sid (some l) start_date end_date =
        Except.error (FredError.invalidArgument conflictMsg) := by
  have h1 : validate_date_parameters (some l) start_date end_date =
      Except.error (FredError.invalidArgument conflictMsg) := by
    rcases h with h | h <;> simp [validate_date_parameters, h]
  refine ⟨h1, ⟨[], " \x27dates\x27 list and \x27start_date\x27/\x27end_date\x27. use one or the other.".data, by decide⟩, ?_⟩
  intro fetch sid hsid
  simp [get_series, hsid, h1]

/-- Witness for C2 at scenario E of the spec. -/
theorem conflict_rejected_witness :
    validate_date_parameters (some ["2020-01-01"]) (some "2020-01-01") none =
      Except.error (FredError.invalidArgument conflictMsg) ∧
    get_series (fun _ _ _ => Except.error (FredError.connectivity "down")) "DTB3"
        (some ["2020-01-01"]) (some "2020-01-01") none =
      Except.error (FredError.invalidArgument conflictMsg) :=
  ⟨(conflict_rejected ["2020-01-01"] (some "2020-01-01") none (Or.inl rfl)).1,
   (conflict_rejected ["2020-01-01"] (some "2020-01-01") none (Or.inl rfl)).2.2
     (fun _ _ _ => Except.error (FredError.connectivity "down")) "DTB3" (by rfl)⟩

/-- C3: for every fetched payload whose parsed series has a missing value
in every row, `get_series` fails with InvalidArgument — the all-missing
check fires right after parsing, for every combination of filtering
parameters (so before any range or explicit-dates filtering can apply). -/
theorem get_series_all_missing_fails (fetch : Fetcher) (sid : String)
    (dates : Option (List String)) (start_date end_date : Option String)
    (raw : RawCsv) (df : List Obs)
    (hsid : validate_series_id sid = Except.ok ())
    (hval : validate_date_parameters dates start_date end_date = Except.ok ())
    (hfetch : (match dates with
               | none => fetch sid start_date end_date
               | some _ => fetch sid none none) = Except.ok raw)
    (hparse : parse_fred_csv raw = Except.ok df)
    (hmiss : df.all (fun o => o.value.isNone) = true) :
    get_series fetch sid dates start_date end_date =
      Except.error (FredError.invalidArgument "All values from FRED API are None") := by
  have hchk : check_all_none df =
      Except.error (FredError.invalidArgument "All values from FRED API are None") := by
    simp [check_all_none, hmiss]
  cases dates with
  | none => simp_all [get_series]
  | some l => simp_all [get_series]

/-- Witness for C3: a two-row payload whose value cells are both the FRED
missing placeholder ".", requested with an explicit dates list that would
otherwise be filtered. -/
theorem get_series_all_missing_fails_witness :
    get_series (fun _ _ _ => Except.ok
        ⟨["observation_date", "DTB3"], [["2020-01-01", "."], ["2020-01-02", "."]]⟩)
      "DTB3" (some ["2020-01-02"]) none none =
      Except.error (FredError.invalidArgument "All values from FRED API are None") :=
  get_series_all_missing_fails
    (fun _ _ _ => Except.ok
      ⟨["observation_date", "DTB3"], [["2020-01-01", "."], ["2020-01-02", "."]]⟩)
    "DTB3" (some ["2020-01-02"]) none none
    ⟨["observation_date", "DTB3"], [["2020-01-01", "."], ["2020-01-02", "."]]⟩
    [⟨⟨2020, 1, 1⟩, none⟩, ⟨⟨2020, 1, 2⟩, none⟩]
    (by rfl) (by rfl) (by rfl) (by rfl) (by rfl)

/-- C9: `get_series` consults the fetcher with no start/end bound whenever
an explicit dates list is provided, and forwards the caller's bounds to
the fetcher only when no dates list is given: its result depends on the
fetcher only through those argument combinations. -/
theorem get_series_fetch_congruence (f₁ f₂ : Fetcher) (sid : String)
    (dates : Option (List String)) (start_date end_date : Option String)
    (hs : dates.isSome = true → f₁ sid none none = f₂ sid none none)
    (hn : dates = none → f₁ sid start_date end_date = f₂ sid start_date end_date) :
    get_series f₁ sid dates start_date end_date =
      get_series f₂ sid dates start_date end_date := by
  cases dates with
  | none => simp [get_series, hn rfl]
  | some l => simp [get_series, hs rfl]

/-- Witness for C9: two fetchers that agree only on the unbounded call
give identical results when an explicit dates list is supplied. -/
theorem get_series_fetch_congruence_witness :
    get_series (fun _ _ _ => Except.ok
        ⟨["observation_date", "DTB3"], [["2020-01-01", "1.5"]]⟩)
      "DTB3" (some ["2020-01-01"]) none none =
    get_series (fun _ s _ => match s with
        | some _ => Except.error (FredError.connectivity "bounded call")
        | none => Except.ok ⟨["observation_date", "DTB3"], [["2020-01-01", "1.5"]]⟩)
      "DTB3" (some ["2020-01-01"]) none none :=
  get_series_fetch_congruence _ _ "DTB3" (some ["2020-01-01"]) none none
    (fun _ => rfl) (fun h => Option.noConfusion h)

theorem orD_assoc (a b c : Option α) : orD (orD a b) c = orD a (orD b c) := by
  cases a <;> rfl

theorem orD_none_right (a : Option α) : orD a none = a := by
  cases a <;> rfl

theorem firstSome_append (l₁ l₂ : List (Option α)) :
    firstSome (l₁ ++ l₂) = orD (firstSome l₁) (firstSome l₂) := by
  induction l₁ with
  | nil => rfl
  | cons v r ih => simp [firstSome, ih, orD_assoc]

theorem ffillVals_length (c : Option α) (l : List (Option α)) :
    (ffillVals c l).length = l.length := by
  induction l generalizing c with
  | nil => rfl
  | cons v r ih => cases v <;> simp [ffillVals, ih]

theorem bfill_length (l : List (Option α)) : (bfill l).length = l.length := by
  induction l with
  | nil => rfl
  | cons v r ih => simp [bfill, ih]

theorem firstSome_ffill_none (l : List (Option α)) :
    firstSome (ffillVals none l) = firstSome l := by
  induction l with
  | nil => rfl
  | cons v r ih => cases v <;> simp [ffillVals, firstSome, ih, orD]

theorem firstSome_ffill_drop (l : List (Option α)) :
    ∀ (c : Option α) (i : Nat), i < l.length →
      firstSome ((ffillVals c l).drop i) =
        orD (firstSome (l.take (i + 1)).reverse)
          (orD c (firstSome (l.drop (i + 1)))) := by
  induction l with
  | nil => intro c i h; simp at h
  | cons v rest ih =>
    intro c i h
    cases i with
    | zero =>
      cases v with
      | some x => simp [ffillVals, firstSome, orD]
      | none =>
        cases c with
        | some k => simp [ffillVals, firstSome, orD]
        | none => simp [ffillVals, firstSome, orD, firstSome_ffill_none]
    | succ j =>
      have hlen : j < rest.length := by simpa using h
      cases v with
      | some x =>
        show firstSome ((ffillVals (some x) rest).drop j) = _
        rw [ih (some x) j hlen]
        simp only [List.take_succ_cons, List.reverse_cons, firstSome_append,
          List.drop_succ_cons]
        cases firstSome (rest.take (j + 1)).reverse <;> rfl
      | none =>
        show firstSome ((ffillVals c rest).drop j) = _
        rw [ih c j hlen]
        simp only [List.take_succ_cons, List.reverse_cons, firstSome_append,
          List.drop_succ_cons]
        cases firstSome (rest.take (j + 1)).reverse <;> rfl

theorem bfill_get (l : List (Option α)) :
    ∀ (i : Nat) (h : i < (bfill l).length),
      (bfill l).get ⟨i, h⟩ = firstSome (l.drop i) := by
  induction l with
  | nil => intro i h; simp [bfill] at h
  | cons v rest ih =>
    intro i h
    cases i with
    | zero => simp [bfill, firstSome, List.get]
    | succ j =>
      have hj : j < (bfill rest).length := by simpa [bfill] using h
      simpa [bfill, List.get] using ih j hj

/-- The composed gap-filling pass of `filter_by_dates`: position `i` of
`bfill (ffill l)` holds the nearest preceding available value, and when
no preceding value exists, the nearest following available value. -/
theorem fill_get (l : List (Option α)) (i : Nat) (h : i < l.length)
    (h2 : i < (bfill (ffillVals none l)).length) :
    (bfill (ffillVals none l)).get ⟨i, h2⟩ =
      orD (firstSome (l.take (i + 1)).reverse) (firstSome (l.drop (i + 1))) := by
  rw [bfill_get, firstSome_ffill_drop l none i h]
  cases firstSome (l.take (i + 1)).reverse <;> rfl

theorem withVals_map_value (os : List Obs) :
    ∀ (vs : List (Option String)), vs.length = os.length →
      (withVals os vs).map (fun o => o.value) = vs := by
  induction os with
  | nil => intro vs hv; cases vs with
    | nil => rfl
    | cons a b => simp at hv
  | cons o os ih =>
    intro vs hv
    cases vs with
    | nil => simp at hv
    | cons v vs => simp [withVals, ih vs (by simpa using hv)]

theorem withVals_map_date (os : List Obs) :
    ∀ (vs : List (Option String)), vs.length = os.length →
      (withVals os vs).map (fun o => o.date) = os.map (fun o => o.date) := by
  induction os with
  | nil => intro vs hv; cases vs with
    | nil => rfl
    | cons a b => simp at hv
  | cons o os ih =>
    intro vs hv
    cases vs with
    | nil => simp at hv
    | cons v vs => simp [withVals, ih vs (by simpa using hv)]

theorem filter_date_eq_nil {df : List Obs} {d : Date}
    (hnot : d ∉ df.map (fun o => o.date)) :
    df.filter (fun o => o.date = d) = [] := by
  rw [List.filter_eq_nil_iff]
  intro o ho
  simp only [decide_eq_true_eq]
  intro hod
  exact hnot (hod ▸ List.mem_map_of_mem (fun o => o.date) ho)

theorem filter_date_len_le_one (d : Date) :
    ∀ {df : List Obs}, (df.map (fun o => o.date)).Nodup →
      (df.filter (fun o => o.date = d)).length ≤ 1 := by
  intro df
  induction df with
  | nil => intro _; simp
  | cons o t ih =>
    intro hnd
    rw [List.map_cons, List.nodup_cons] at hnd
    rw [List.filter_cons]
    by_cases hod : o.date = d
    · have ht : t.filter (fun o => o.date = d) = [] :=
        filter_date_eq_nil (fun hc => hnd.1 (by rwa [← hod] at hc))
      simp [hod, ht]
    · simp [hod, ih hnd.2]

theorem mergeLeft_map_date {df : List Obs}
    (hnd : (df.map (fun o => o.date)).Nodup) :
    ∀ dates : List Date, (mergeLeft dates df).map (fun o => o.date) = dates := by
  intro dates
  induction dates with
  | nil => rfl
  | cons d rest ih =>
    have hle := filter_date_len_le_one d hnd
    cases hms : df.filter (fun o => o.date = d) with
    | nil => simp [mergeLeft, hms, ih]
    | cons o t =>
      cases t with
      | nil => simp [mergeLeft, hms, ih]
      | cons o2 t2 => rw [hms] at hle; simp at hle

theorem mem_mergeLeft {df : List Obs} {d : Date} (hdf : Obs.mk d none ∈ df) :
    ∀ {dates : List Date}, d ∈ dates → Obs.mk d none ∈ mergeLeft dates df := by
  intro dates
  induction dates with
  | nil => intro h; cases h
  | cons d0 rest ih =>
    intro hmem
    rcases List.mem_cons.mp hmem with h | h
    · subst h
      have hms : Obs.mk d none ∈ df.filter (fun o => o.date = d) :=
        List.mem_filter.mpr ⟨hdf, by simp⟩
      refine List.mem_append_left _ ?_
      have hne : (df.filter (fun o => o.date = d)).isEmpty = false := by
        cases hc : df.filter (fun o => o.date = d) with
        | nil => rw [hc] at hms; cases hms
        | cons a b => simp
      simp only [mergeLeft, hne, Bool.false_eq_true, if_false]
      exact List.mem_map.mpr ⟨Obs.mk d none, hms, rfl⟩
    · exact List.mem_append_right _ (ih h)

theorem block_drop_missing (d : Date) :
    ∀ {df : List Obs}, (df.map (fun o => o.date)).Nodup →
      (let ms := (df.filter (fun o => o.value.isSome)).filter (fun o => o.date = d)
       if ms.isEmpty then [(⟨d, none⟩ : Obs)] else ms.map (fun o => ⟨d, o.value⟩)) =
      (let ms := df.filter (fun o => o.date = d)
       if ms.isEmpty then [(⟨d, none⟩ : Obs)] else ms.map (fun o => ⟨d, o.value⟩)) := by
  intro df
  induction df with
  | nil => intro _; rfl
  | cons o t ih =>
    intro hnd
    rw [List.map_cons, List.nodup_cons] at hnd
    by_cases hod : o.date = d
    · have ht : t.filter (fun o => o.date = d) = [] :=
        filter_date_eq_nil (fun hc => hnd.1 (by rwa [← hod] at hc))
      have ht' : (t.filter (fun o => o.value.isSome)).filter (fun o => o.date = d) = [] := by
        rw [List.filter_eq_nil_iff]
        intro a ha had
        have : a ∈ t.filter (fun o => o.date = d) :=
          List.mem_filter.mpr ⟨(List.mem_filter.mp ha).1, had⟩
        rw [ht] at this
        cases this
      cases hv : o.value with
      | some v =>
          simp [List.filter_cons, hod, hv, ht, ht']
      | none =>
          simp [List.filter_cons, hod, hv, ht, ht']
    · cases hv : o.value with
      | some v => simpa [List.filter_cons, hod, hv] using ih hnd.2
      | none => simpa [List.filter_cons, hod, hv] using ih hnd.2

theorem mergeLeft_drop_missing {df : List Obs}
    (hnd : (df.map (fun o => o.date)).Nodup) :
    ∀ dates : List Date,
      mergeLeft dates (df.filter (fun o => o.value.isSome)) = mergeLeft dates df := by
  intro dates
  induction dates with
  | nil => rfl
  | cons d rest ih =>
    show (let ms := (df.filter (fun o => o.value.isSome)).filter (fun o => o.date = d)
          if ms.isEmpty then [(⟨d, none⟩ : Obs)] else ms.map (fun o => ⟨d, o.value⟩))
            ++ mergeLeft rest (df.filter (fun o => o.value.isSome)) = _
    rw [block_drop_missing d hnd, ih]
    rfl

theorem mem_joinWith (sep : String) :
    ∀ (l : List String) (s : String), s ∈ l →
      ContainsChars s.data (joinWith sep l).data := by
  intro l
  induction l with
  | nil => intro s hs; cases hs
  | cons x xs ih =>
    intro s hs
    cases xs with
    | nil =>
      have hx : s = x := by simpa using hs
      subst hx
      exact ⟨[], [], by simp [joinWith]⟩
    | cons y ys =>
      rcases List.mem_cons.mp hs with h | h
      · subst h
        exact ⟨[], sep.data ++ (joinWith sep (y :: ys)).data,
          by simp [joinWith, String.data_append]⟩
      · obtain ⟨p, q, hpq⟩ := ih s h
        exact ⟨x.data ++ sep.data ++ p, q,
          by simp [joinWith, String.data_append, hpq]⟩

theorem inception_msg_lists (off : List Date) (inception : Date) (d : Date)
    (hd : d ∈ off) :
    ContainsChars (Date.render d).data (mkInceptionMsg off inception).data := by
  obtain ⟨p, q, hpq⟩ :=
    mem_joinWith ", " (off.map Date.render) (Date.render d)
      (List.mem_map_of_mem Date.render hd)
  refine ⟨"Requested dates [".data ++ p,
    q ++ ("] are before series inception date " ++ Date.render inception).data, ?_⟩
  simp [mkInceptionMsg, String.data_append, hpq]

/-- C6: for every series and requested-dates list, if any requested date
is strictly earlier than the given inception bound, `filter_by_dates`
fails with InvalidArgument whose message lists every offending date; and
`get_series` reaches this failure passing the fetched series' minimum date
as the bound. -/
theorem filter_by_dates_inception_reject (df : List Obs) (dates : List Date)
    (inception : Date)
    (h : dates.filter (fun d => Date.ltB d inception) ≠ []) :
    filter_by_dates df dates inception =
      Except.error (FredError.invalidArgument
        (mkInceptionMsg (dates.filter (fun d => Date.ltB d inception)) inception)) ∧
    (∀ d ∈ dates.filter (fun d => Date.ltB d inception),
      ContainsChars (Date.render d).data
        (mkInceptionMsg (dates.filter (fun d => Date.ltB d inception)) inception).data) ∧
    ∀ (fetch : Fetcher) (sid : String) (ds : List String)
      (start_date end_date : Option String) (raw : RawCsv),
      validate_series_id sid = Except.ok () →
      validate_date_parameters (some ds) start_date end_date = Except.ok () →
      fetch sid none none = Except.ok raw →
      parse_fred_csv raw = Except.ok df →
      check_all_none df = Except.ok () →
      ds.map parseYMDD = dates →
      inception = seriesMin df →
      get_series fetch sid (some ds) start_date end_date =
        Except.error (FredError.invalidArgument
          (mkInceptionMsg (dates.filter (fun d => Date.ltB d inception)) inception)) := by
  have p1 : filter_by_dates df dates inception =
      Except.error (FredError.invalidArgument
        (mkInceptionMsg (dates.filter (fun d => Date.ltB d inception)) inception)) := by
    simp [filter_by_dates, h]
  refine ⟨p1, fun d hd => inception_msg_lists _ inception d hd, ?_⟩
  intro fetch sid ds start_date end_date raw hsid hval hfetch hparse hchk hdm hinc
  subst hdm
  subst hinc
  simp [get_series, hsid, hval, hfetch, hparse, hchk, p1]

/-- Witness for C6: requesting 2020-01-01 from a series starting at
2020-01-02 is rejected, citing the offending date. -/
theorem filter_by_dates_inception_reject_witness :
    get_series (fun _ _ _ => Except.ok
        ⟨["observation_date", "DTB3"], [["2020-01-02", "1.0"]]⟩)
      "DTB3" (some ["2020-01-01"]) none none =
      Except.error (FredError.invalidArgument
        (mkInceptionMsg [⟨2020, 1, 1⟩] ⟨2020, 1, 2⟩)) := by
  have h := (filter_by_dates_inception_reject [⟨⟨2020, 1, 2⟩, some "1.0"⟩]
    [⟨2020, 1, 1⟩] ⟨2020, 1, 2⟩ (by decide)).2.2
    (fun _ _ _ => Except.ok ⟨["observation_date", "DTB3"], [["2020-01-02", "1.0"]]⟩)
    "DTB3" ["2020-01-01"] none none
    ⟨["observation_date", "DTB3"], [["2020-01-02", "1.0"]]⟩
    (by rfl) (by rfl) (by rfl) (by rfl) (by rfl) (by rfl) (by rfl)
  exact h.trans (by rfl)

/-- C5: when at least one requested date has a missing value after the
exact-match join, `filter_by_dates` still succeeds (never an error),
emits a warning listing exactly the originally-missing dates, keeps one
output row per joined row in order, and fills values by the
forward-then-backward policy: each position holds the nearest preceding
available value in requested order, or — when no preceding value exists —
the nearest following available value. -/
theorem filter_by_dates_gap_filling (df : List Obs) (dates : List Date)
    (inception : Date)
    (h0 : dates.filter (fun d => Date.ltB d inception) = [])
    (h1 : (mergeLeft dates df).filter (fun o => o.value.isNone) ≠ []) :
    filter_by_dates df dates inception = Except.ok
      (withVals (mergeLeft dates df)
         (bfill (ffillVals none ((mergeLeft dates df).map (fun o => o.value)))),
       some (((mergeLeft dates df).filter (fun o => o.value.isNone)).map
         (fun o => o.date))) ∧
    (withVals (mergeLeft dates df)
        (bfill (ffillVals none ((mergeLeft dates df).map (fun o => o.value))))).map
      (fun o => o.date) = (mergeLeft dates df).map (fun o => o.date) ∧
    ∀ i, i < (mergeLeft dates df).length →
      ((withVals (mergeLeft dates df)
          (bfill (ffillVals none ((mergeLeft dates df).map (fun o => o.value))))).map
        (fun o => o.value))[i]? =
        some (orD
          (firstSome (((mergeLeft dates df).map (fun o => o.value)).take (i + 1)).reverse)
          (firstSome (((mergeLeft dates df).map (fun o => o.value)).drop (i + 1)))) := by
  have hfl : (bfill (ffillVals none ((mergeLeft dates df).map (fun o => o.value)))).length
      = (mergeLeft dates df).length := by
    rw [bfill_length, ffillVals_length, List.length_map]
  have hmiss : ((mergeLeft dates df).filter (fun o => o.value.isNone)).map
      (fun o => o.date) ≠ [] := by
    intro hc
    exact h1 (List.map_eq_nil_iff.mp hc)
  refine ⟨?_, withVals_map_date _ _ hfl, ?_⟩
  · simp [filter_by_dates, h0, hmiss]
  · intro i hi
    rw [withVals_map_value _ _ hfl]
    have hib : i < (bfill (ffillVals none
        ((mergeLeft dates df).map (fun o => o.value)))).length := by
      rw [hfl]; exact hi
    rw [List.getElem?_eq_getElem hib]
    have hg := fill_get ((mergeLeft dates df).map (fun o => o.value)) i
      (by simpa using hi) hib
    rw [List.get_eq_getElem] at hg
    rw [hg]

/-- Witness for C5: the missing middle date 2020-01-02 is forward-filled
from 2020-01-01 and reported in the warning. -/
theorem filter_by_dates_gap_filling_witness :
    filter_by_dates [⟨⟨2020, 1, 1⟩, some "1.5"⟩, ⟨⟨2020, 1, 3⟩, some "2.0"⟩]
        [⟨2020, 1, 1⟩, ⟨2020, 1, 2⟩, ⟨2020, 1, 3⟩] ⟨2020, 1, 1⟩ =
      Except.ok ([⟨⟨2020, 1, 1⟩, some "1.5"⟩, ⟨⟨2020, 1, 2⟩, some "1.5"⟩,
        ⟨⟨2020, 1, 3⟩, some "2.0"⟩], some [⟨2020, 1, 2⟩]) := by
  have h := (filter_by_dates_gap_filling
    [⟨⟨2020, 1, 1⟩, some "1.5"⟩, ⟨⟨2020, 1, 3⟩, some "2.0"⟩]
    [⟨2020, 1, 1⟩, ⟨2020, 1, 2⟩, ⟨2020, 1, 3⟩] ⟨2020, 1, 1⟩
    (by rfl) (by decide)).1
  exact h.trans (by rfl)

/-- C4 (amended): for every series *whose dates are pairwise distinct* and
every non-empty requested-dates list all of whose dates are on or after
the series' minimum date, the explicit-dates filter succeeds and returns
exactly one row per requested date, in the order requested, so the result
length equals the number of requested dates (duplicates included, no
de-duplication). -/
theorem filter_by_dates_shape (df : List Obs) (dates : List Date)
    (hnd : (df.map (fun o => o.date)).Nodup)
    (hne : dates ≠ [])
    (hge : ∀ d ∈ dates, Date.leB (seriesMin df) d = true) :
    ∃ res warning,
      filter_by_dates df dates (seriesMin df) = Except.ok (res, warning) ∧
      res.map (fun o => o.date) = dates ∧
      res.length = dates.length := by
  have hbefore : dates.filter (fun d => Date.ltB d (seriesMin df)) = [] := by
    rw [List.filter_eq_nil_iff]
    intro d hd
    simp [Date.ltB_eq_false_of_leB (hge d hd)]
  have hmd : (mergeLeft dates df).map (fun o => o.date) = dates :=
    mergeLeft_map_date hnd dates
  have hml : (mergeLeft dates df).length = dates.length := by
    conv_rhs => rw [← hmd]
    rw [List.length_map]
  by_cases hm : ((mergeLeft dates df).filter (fun o => o.value.isNone)).map
      (fun o => o.date) = []
  · refine ⟨mergeLeft dates df, none, ?_, hmd, hml⟩
    simp [filter_by_dates, hbefore, hm]
  · have hfl : (bfill (ffillVals none
        ((mergeLeft dates df).map (fun o => o.value)))).length
        = (mergeLeft dates df).length := by
      rw [bfill_length, ffillVals_length, List.length_map]
    refine ⟨withVals (mergeLeft dates df)
      (bfill (ffillVals none ((mergeLeft dates df).map (fun o => o.value)))),
      some (((mergeLeft dates df).filter (fun o => o.value.isNone)).map
        (fun o => o.date)), ?_, ?_, ?_⟩
    · simp [filter_by_dates, hbefore, hm]
    · rw [withVals_map_date _ _ hfl, hmd]
    · have := withVals_map_date _ _ hfl
      calc (withVals (mergeLeft dates df) (bfill (ffillVals none
              ((mergeLeft dates df).map (fun o => o.value))))).length
          = ((withVals (mergeLeft dates df) (bfill (ffillVals none
              ((mergeLeft dates df).map (fun o => o.value))))).map
              (fun o => o.date)).length := by rw [List.length_map]
        _ = dates.length := by rw [this, hmd]

/-- Witness for C4's amended statement on a three-date request. -/
theorem filter_by_dates_shape_witness :
    ∃ res warning,
      filter_by_dates [⟨⟨2020, 1, 1⟩, some "1.5"⟩, ⟨⟨2020, 1, 3⟩, some "2.0"⟩]
          [⟨2020, 1, 3⟩, ⟨2020, 1, 1⟩, ⟨2020, 1, 3⟩]
          (seriesMin [⟨⟨2020, 1, 1⟩, some "1.5"⟩, ⟨⟨2020, 1, 3⟩, some "2.0"⟩]) =
        Except.ok (res, warning) ∧
      res.map (fun o => o.date) = [⟨2020, 1, 3⟩, ⟨2020, 1, 1⟩, ⟨2020, 1, 3⟩] ∧
      res.length = [(⟨2020, 1, 3⟩ : Date), ⟨2020, 1, 1⟩, ⟨2020, 1, 3⟩].length :=
  filter_by_dates_shape
    [⟨⟨2020, 1, 1⟩, some "1.5"⟩, ⟨⟨2020, 1, 3⟩, some "2.0"⟩]
    [⟨2020, 1, 3⟩, ⟨2020, 1, 1⟩, ⟨2020, 1, 3⟩]
    (by decide) (by decide) (by decide)

/-- Counterexample to C4 as stated: a source series carrying the same
date twice (which parsing does not forbid) makes the left join emit one
row per matching source row, so a single requested date yields two rows
and the result length differs from the requested count. -/
theorem filter_by_dates_shape_counterexample :
    filter_by_dates [⟨⟨2020, 1, 1⟩, some "1.0"⟩, ⟨⟨2020, 1, 1⟩, some "2.0"⟩]
        [⟨2020, 1, 1⟩]
        (seriesMin [⟨⟨2020, 1, 1⟩, some "1.0"⟩, ⟨⟨2020, 1, 1⟩, some "2.0"⟩]) =
      Except.ok ([⟨⟨2020, 1, 1⟩, some "1.0"⟩, ⟨⟨2020, 1, 1⟩, some "2.0"⟩], none) ∧
    ([⟨⟨2020, 1, 1⟩, some "1.0"⟩, ⟨⟨2020, 1, 1⟩, some "2.0"⟩] : List Obs).length = 2 ∧
    ([⟨2020, 1, 1⟩] : List Date).length = 1 :=
  ⟨by rfl, rfl, rfl⟩

/-- C10: a requested date present in the source with a missing value is
treated exactly as a date absent from the source — for a
duplicate-date-free series, the filter's result is unchanged when the
missing-valued rows are removed beforehand; and such a date always
appears in the emitted missing-dates warning. -/
theorem filter_by_dates_missing_value_as_absent (df : List Obs)
    (dates : List Date) (inception : Date)
    (hnd : (df.map (fun o => o.date)).Nodup) :
    filter_by_dates (df.filter (fun o => o.value.isSome)) dates inception =
      filter_by_dates df dates inception ∧
    ∀ d res warning, d ∈ dates → Obs.mk d none ∈ df →
      filter_by_dates df dates inception = Except.ok (res, warning) →
      ∃ ws, warning = some ws ∧ d ∈ ws := by
  constructor
  · simp only [filter_by_dates, mergeLeft_drop_missing hnd]
  · intro d res warning hd hdf hok
    by_cases hb : dates.filter (fun d => Date.ltB d inception) = []
    · have hmem : Obs.mk d none ∈ mergeLeft dates df := mem_mergeLeft hdf hd
      have hdm : d ∈ ((mergeLeft dates df).filter (fun o => o.value.isNone)).map
          (fun o => o.date) :=
        List.mem_map.mpr ⟨Obs.mk d none, List.mem_filter.mpr ⟨hmem, by simp⟩, rfl⟩
      have hne : ((mergeLeft dates df).filter (fun o => o.value.isNone)).map
          (fun o => o.date) ≠ [] := by
        intro hc
        rw [hc] at hdm
        cases hdm
      have heq : filter_by_dates df dates inception = Except.ok
          (withVals (mergeLeft dates df)
            (bfill (ffillVals none ((mergeLeft dates df).map (fun o => o.value)))),
           some (((mergeLeft dates df).filter (fun o => o.value.isNone)).map
             (fun o => o.date))) := by
        simp [filter_by_dates, hb, hne]
      rw [heq] at hok
      have hw := (Prod.mk.injEq _ _ _ _).mp (Except.ok.inj hok)
      exact ⟨((mergeLeft dates df).filter (fun o => o.value.isNone)).map
        (fun o => o.date), hw.2.symm, hdm⟩
    · have : filter_by_dates df dates inception = Except.error
          (FredError.invalidArgument (mkInceptionMsg
            (dates.filter (fun d => Date.ltB d inception)) inception)) := by
        simp [filter_by_dates, hb]
      rw [this] at hok
      cases hok

/-- Witness for C10: a date whose source row exists with a missing value
is reported missing and the filter result matches the one with that row
deleted. -/
theorem filter_by_dates_missing_value_as_absent_witness :
    filter_by_dates ([⟨⟨2020, 1, 1⟩, some "1.0"⟩,
        ⟨⟨2020, 1, 2⟩, (none : Option String)⟩].filter (fun o => o.value.isSome))
      [⟨2020, 1, 1⟩, ⟨2020, 1, 2⟩] ⟨2020, 1, 1⟩ =
      filter_by_dates [⟨⟨2020, 1, 1⟩, some "1.0"⟩, ⟨⟨2020, 1, 2⟩, none⟩]
        [⟨2020, 1, 1⟩, ⟨2020, 1, 2⟩] ⟨2020, 1, 1⟩ ∧
    ∃ ws, (some [(⟨2020, 1, 2⟩ : Date)] : Option (List Date)) = some ws ∧
      (⟨2020, 1, 2⟩ : Date) ∈ ws := by
  have h := filter_by_dates_missing_value_as_absent
    [⟨⟨2020, 1, 1⟩, some "1.0"⟩, ⟨⟨2020, 1, 2⟩, none⟩]
    [⟨2020, 1, 1⟩, ⟨2020, 1, 2⟩] ⟨2020, 1, 1⟩ (by decide)
  refine ⟨h.1, h.2 ⟨2020, 1, 2⟩
    [⟨⟨2020, 1, 1⟩, some "1.0"⟩, ⟨⟨2020, 1, 2⟩, some "1.0"⟩]
    (some [⟨2020, 1, 2⟩]) (by decide) (by decide) (by rfl)⟩

theorem digVal_le_nine {c : Char} (h : c.isDigit = true) : digVal c ≤ 9 := by
  simp only [Char.isDigit, Bool.and_eq_true, decide_eq_true_eq] at h
  have h2 : c.val.toNat ≤ 57 := h.2
  simp only [digVal, Char.toNat]
  omega

theorem dash_not_digit {c : Char} (h : c.isDigit = true) : (c = '-') = False := by
  simp only [eq_iff_iff, iff_false]
  intro hc
  subst hc
  simp [Char.isDigit] at h

theorem readYear_eq_some {l : List Char} {y : Nat} {rest : List Char}
    (h : readYear l = some (y, rest)) :
    ∃ y1 y2 y3 y4, l = y1 :: y2 :: y3 :: y4 :: '-' :: rest ∧
      (y1.isDigit && y2.isDigit && y3.isDigit && y4.isDigit) = true ∧
      y = ((digVal y1 * 10 + digVal y2) * 10 + digVal y3) * 10 + digVal y4 := by
  rcases l with _ | ⟨a, _ | ⟨b, _ | ⟨c, _ | ⟨d0, _ | ⟨e, r⟩⟩⟩⟩⟩ <;>
      simp only [readYear] at h <;> try exact Option.noConfusion h
  split at h
  · rename_i hc
    simp only [Bool.and_eq_true, decide_eq_true_eq] at hc
    obtain ⟨⟨⟨⟨ha, hb⟩, hcc⟩, hd⟩, he⟩ := hc
    subst he
    have hp := Option.some.inj h
    rw [Prod.mk.injEq] at hp
    obtain ⟨hy, hr⟩ := hp
    subst hr
    exact ⟨a, b, c, d0, rfl, by simp [ha, hb, hcc, hd], hy.symm⟩
  · exact Option.noConfusion h

theorem readMonth_eq_some {l : List Char} {m : Nat} {rest : List Char}
    (h : readMonth l = some (m, rest)) :
    ∃ ms, l = ms ++ '-' :: rest ∧ ms.all Char.isDigit = true ∧
      (ms.length = 1 ∨ ms.length = 2) ∧
      m = ms.foldl (fun a c => a * 10 + digVal c) 0 ∧ 1 ≤ m ∧ m ≤ 12 := by
  rcases l with _ | ⟨m1, _ | ⟨c2, r⟩⟩ <;>
      simp only [readMonth] at h <;> try exact Option.noConfusion h
  split at h
  · rename_i hc2
    subst hc2
    split at h
    · rename_i hc
      simp only [Bool.and_eq_true, decide_eq_true_eq] at hc
      have hp := Option.some.inj h
      rw [Prod.mk.injEq] at hp
      obtain ⟨hm, hr⟩ := hp
      subst hr
      have h9 := digVal_le_nine hc.1
      refine ⟨[m1], rfl, by simp [hc.1], Or.inl rfl, by simpa using hm.symm, ?_, ?_⟩
      · omega
      · omega
    · exact Option.noConfusion h
  · rcases r with _ | ⟨c3, r2⟩ <;> simp only [readMonth2] at h
    · exact Option.noConfusion h
    · split at h
      · rename_i hc
        simp only [Bool.and_eq_true, decide_eq_true_eq] at hc
        obtain ⟨⟨⟨⟨h3, h1⟩, h2⟩, hge⟩, hle⟩ := hc
        subst h3
        have hp := Option.some.inj h
        rw [Prod.mk.injEq] at hp
        obtain ⟨hm, hr⟩ := hp
        subst hr
        refine ⟨[m1, c2], rfl, by simp [h1, h2], Or.inr rfl, ?_, ?_, ?_⟩
        · simpa using hm.symm
        · omega
        · omega
      · exact Option.noConfusion h

theorem readDay_eq_some {l : List Char} {d : Nat}
    (h : readDay l = some d) :
    l.all Char.isDigit = true ∧ (l.length = 1 ∨ l.length = 2) ∧
      d = l.foldl (fun a c => a * 10 + digVal c) 0 ∧ 1 ≤ d ∧ d ≤ 31 := by
  rcases l with _ | ⟨d1, _ | ⟨d2, _ | ⟨c, r2⟩⟩⟩ <;>
      simp only [readDay] at h <;> try exact Option.noConfusion h
  · split at h
    · rename_i hc
      simp only [Bool.and_eq_true, decide_eq_true_eq] at hc
      have hd := Option.some.inj h
      subst hd
      have h9 := digVal_le_nine hc.1
      exact ⟨by simp [hc.1], Or.inl rfl, by simp, hc.2, by omega⟩
    · exact Option.noConfusion h
  · split at h
    · rename_i hc
      simp only [Bool.and_eq_true, decide_eq_true_eq] at hc
      obtain ⟨⟨⟨h1, h2⟩, hge⟩, hle⟩ := hc
      have hd := Option.some.inj h
      subst hd
      exact ⟨by simp [h1, h2], Or.inr rfl, by simp, hge, hle⟩
    · exact Option.noConfusion h

theorem daysInMonth_le_31 (y m : Nat) : daysInMonth y m ≤ 31 := by
  unfold daysInMonth
  split_ifs <;> omega

theorem parseYMD_flex {s : String} {dt : Date} (h : parseYMD s = some dt) :
    FlexYMD s := by
  unfold parseYMD at h
  split at h
  · cases h
  · rename_i y rest hy
    split at h
    · cases h
    · rename_i m rest2 hm
      split at h
      · cases h
      · rename_i d hd
        unfold mkValid at h
        split at h
        · rename_i hv
          obtain ⟨y1, y2, y3, y4, hsh, hydig, hyval⟩ := readYear_eq_some hy
          obtain ⟨ms, hrest, hmdig, hmlen, hmval, hm1, hm12⟩ := readMonth_eq_some hm
          obtain ⟨hddig, hdlen, hdval, hd1, hd31⟩ := readDay_eq_some hd
          simp only [Bool.and_eq_true] at hydig
          refine ⟨y1, y2, y3, y4, ms, rest2, ?_, ?_, hmlen, hdlen, ?_⟩
          · rw [hsh, hrest]
            simp
          · simp [List.all_append, List.all_cons, hydig.1.1.1, hydig.1.1.2,
              hydig.1.2, hydig.2, hmdig, hddig]
          · rw [← hyval, ← hmval, ← hdval]
            exact hv
        · cases h

theorem flex_parseYMD {s : String} (h : FlexYMD s) :
    (parseYMD s).isSome = true := by
  obtain ⟨y1, y2, y3, y4, ms, ds, hsh, hdig, hmlen, hdlen, hval⟩ := h
  rcases ms with _ | ⟨m1, _ | ⟨m2, _ | ⟨m3, mrest⟩⟩⟩ <;>
    rcases ds with _ | ⟨d1, _ | ⟨d2, _ | ⟨d3, drest⟩⟩⟩ <;>
    simp only [List.length_cons, List.length_nil] at hmlen hdlen <;>
    try omega
  all_goals
    simp only [List.append_assoc, List.cons_append, List.nil_append,
      List.all_cons, List.all_nil, Bool.and_eq_true, Bool.and_true,
      and_true] at hdig
  all_goals
    simp only [List.foldl_cons, List.foldl_nil, Nat.zero_mul, Nat.zero_add] at hval
  all_goals unfold parseYMD
  all_goals rw [hsh]
  · -- one-digit month, one-digit day
    obtain ⟨hy1, hy2, hy3, hy4, hm1d, hd1d⟩ := hdig
    obtain ⟨hvy, hvm1, hvm12, hvd1, hvdm⟩ := hval
    have hd31 : digVal d1 ≤ 31 := le_trans hvdm (daysInMonth_le_31 _ _)
    simp [readYear, readMonth, readDay, mkValid, hy1, hy2, hy3, hy4,
      hm1d, hd1d, hvy, hvm1, hvm12, hvd1, hvdm]
  · -- one-digit month, two-digit day
    obtain ⟨hy1, hy2, hy3, hy4, hm1d, hd1d, hd2d⟩ := hdig
    obtain ⟨hvy, hvm1, hvm12, hvd1, hvdm⟩ := hval
    have hd31 : digVal d1 * 10 + digVal d2 ≤ 31 :=
      le_trans hvdm (daysInMonth_le_31 _ _)
    simp [readYear, readMonth, readDay, mkValid, hy1, hy2, hy3, hy4,
      hm1d, hd1d, hd2d, hvy, hvm1, hvm12, hvd1, hvdm, hd31]
  · -- two-digit month, one-digit day
    obtain ⟨hy1, hy2, hy3, hy4, hm1d, hm2d, hd1d⟩ := hdig
    obtain ⟨hvy, hvm1, hvm12, hvd1, hvdm⟩ := hval
    have hd31 : digVal d1 ≤ 31 := le_trans hvdm (daysInMonth_le_31 _ _)
    simp [readYear, readMonth, readMonth2, readDay, mkValid, hy1, hy2, hy3, hy4,
      hm1d, hm2d, hd1d, dash_not_digit hm2d, hvy, hvm1, hvm12, hvd1, hvdm]
  · -- two-digit month, two-digit day
    obtain ⟨hy1, hy2, hy3, hy4, hm1d, hm2d, hd1d, hd2d⟩ := hdig
    obtain ⟨hvy, hvm1, hvm12, hvd1, hvdm⟩ := hval
    have hd31 : digVal d1 * 10 + digVal d2 ≤ 31 :=
      le_trans hvdm (daysInMonth_le_31 _ _)
    simp [readYear, readMonth, readMonth2, readDay, mkValid, hy1, hy2, hy3, hy4,
      hm1d, hm2d, hd1d, hd2d, dash_not_digit hm2d, hvy, hvm1, hvm12, hvd1,
      hvdm, hd31]

/-- C1 (amended): `validate_date_format` succeeds exactly when the string
is a dash-separated valid calendar date whose year has exactly four
digits and whose month and day have one *or* two digits (strptime accepts
unpadded month/day fields); all other strings — wrong separators, partial
dates, extra characters, or invalid day/month combinations — fail with
InvalidArgument. -/
theorem validate_date_format_iff_flex (s : String) (param_name : String) :
    validate_date_format s param_name = Except.ok () ↔ FlexYMD s := by
  constructor
  · intro h
    unfold validate_date_format at h
    cases hp : parseYMD s with
    | none => rw [hp] at h; cases h
    | some dt => exact parseYMD_flex hp
  · intro h
    have hs := flex_parseYMD h
    unfold validate_date_format
    cases hp : parseYMD s with
    | none => rw [hp] at hs; cases hs
    | some dt => rfl

/-- Counterexample to C1 as stated: "2021-1-1" is not in the exact
`YYYY-MM-DD` format (month and day are one digit wide), yet
`validate_date_format` accepts it, because `strptime` accepts unpadded
month and day fields. -/
theorem validate_date_format_not_exact_only :
    isExactYMD "2021-1-1" = false ∧
    validate_date_format "2021-1-1" "start_date" = Except.ok () :=
  ⟨by decide, by rfl⟩
